import Mathlib

/-!
Mobility node of the swarm rover (`src/mobility/src/mobility.cpp`).

A shallow embedding of the pose-broadcast parser, the roster, the neighbour
computation, the circular-mean headings and the control tick of the mobility
node, followed by the properties established about them.

Conventions of the embedding

* The global variables of the translation unit are the fields of `State`;
  every handler takes the state and returns the new state together with the
  list of effects it performed on publishers, timers and `cout`, in program
  order.
* Numbers (`float`/`double` in the source) range over an ordered field `α`;
  arithmetic is exact, rounding is not modelled.  The functions of `<math.h>`
  used by the source are the fields of `Libm`; `realLibm` interprets them over
  the real numbers.
* `std::string` is `String`; a `stringstream` is the list of characters that
  are still unread.
-/

namespace Mobility

/-! ## Data model -/

/-- Modelled from the spec: `Pose.h` is not part of the available sources.  A
pose is the record of `x`, `y`, `theta`; a default-constructed pose is the zero
pose. -/
structure pose (α : Type) where
  x : α
  y : α
  theta : α
deriving DecidableEq

/-- The default-constructed pose `pose p;` (all fields zero). -/
def pose.zero {α : Type} [Zero α] : pose α := ⟨0, 0, 0⟩

/-- The functions of `<math.h>` called by the node. -/
structure Libm (α : Type) where
  cos : α → α
  sin : α → α
  atan2 : α → α → α
  hypot : α → α → α

/-- Effects of a handler, in the order they are performed. -/
inductive Output (α : Type) where
  | killSwitchTimer_stop : Output α
  | killSwitchTimer_start : Output α
  | velocityPublish (linear_x angular_z : α) : Output α
  | posePublisher (name : String) (x y theta : α) : Output α
  | stateMachinePublish (data : String) : Output α
  | debug_publisher (msg name : String) (gah lah t0 t1 t2 : α) : Output α
  | globalAverageHeadingPublisher (data : α) : Output α
  | localAverageHeadingPublisher (data : α) : Output α
  | cout (text : String) : Output α
deriving DecidableEq

/-- The global variables of `mobility.cpp` that the modelled functions read or
write.  `all_rovers` is `vector<pose> all_rovers(6)`, never resized, so it is a
table indexed by `0..5`. -/
structure State (α : Type) where
  rover_name : String
  simulation_mode : Int
  global_local_heading : α
  global_av_heading : α
  current_location : pose α
  direction_theta : α
  average_x : α
  average_y : α
  transitions_to_auto : Int
  time_stamp_transition_to_auto : α
  state_machine_state : Int
  neighbors : List (pose α)
  all_rovers : Fin 6 → pose α

/-- The values of the globals at program start, once `main` has stored the
name of the rover. -/
def State.initial {α : Type} [Zero α] (name : String) : State α where
  rover_name := name
  simulation_mode := 0
  global_local_heading := 0
  global_av_heading := 0
  current_location := pose.zero
  direction_theta := 0
  average_x := 0
  average_y := 0
  transitions_to_auto := 0
  time_stamp_transition_to_auto := 0
  state_machine_state := 0
  neighbors := List.replicate 6 pose.zero
  all_rovers := fun _ => pose.zero

/-- `#define KP 0.5` -/
def KP {α : Type} [Field α] : α := 0.5

/-- `#define STATE_MACHINE_TRANSLATE 0` -/
def STATE_MACHINE_TRANSLATE : Int := 0

/-! ## Stream extraction -/

/-- `std::getline(ss, field, delim)` on the unread characters `ss`: the field
read (the characters before the first `delim`, or all of them when there is
none, or nothing when the stream is exhausted) and the characters left once the
delimiter is consumed. -/
def getline (ss : List Char) (delim : Char) : List Char × List Char :=
  (ss.takeWhile (fun c => c != delim), (ss.dropWhile (fun c => c != delim)).drop 1)

/-- `isspace` in the "C" locale. -/
def isspace (c : Char) : Bool :=
  c == ' ' || c == '\t' || c == '\n' || c == '\r' || c.toNat == 11 || c.toNat == 12

/-- Value of a run of decimal digits. -/
def digits_value (ds : List Char) : Nat :=
  ds.foldl (fun n c => 10 * n + (c.toNat - 48)) 0

/-- An optional sign in front of the unread characters. -/
def scan_sign (s : List Char) : Bool × List Char :=
  match s with
  | '-' :: t => (true, t)
  | '+' :: t => (false, t)
  | _ => (false, s)

/-- A decimal numeral as it is read: sign, the digits of the mantissa, the
number of digits after the point, and the exponent of ten. -/
structure Decimal where
  neg : Bool
  mantissa : Nat
  scale : Nat
  exp : Int
deriving DecidableEq

/-- The numeral that the formatted extraction `iss >> d` (for a floating
`d`) accepts at the front of the text: leading white space is skipped, then
come an optional sign, digits with an optional point, and an optional exponent.
`none` is a failed extraction. -/
def scan_double (s : List Char) : Option Decimal :=
  let s0 := s.dropWhile isspace
  let sg := scan_sign s0
  let ip := sg.2.takeWhile Char.isDigit
  let s1 := sg.2.dropWhile Char.isDigit
  let fr : List Char × List Char :=
    match s1 with
    | '.' :: t => (t.takeWhile Char.isDigit, t.dropWhile Char.isDigit)
    | _ => ([], s1)
  if ip.isEmpty && fr.1.isEmpty then none
  else
    let m := digits_value (ip ++ fr.1)
    match fr.2 with
    | c :: t =>
      if c == 'e' || c == 'E' then
        let es := scan_sign t
        let ed := es.2.takeWhile Char.isDigit
        if ed.isEmpty then none
        else some ⟨sg.1, m, fr.1.length,
          if es.1 then -(digits_value ed : Int) else (digits_value ed : Int)⟩
      else some ⟨sg.1, m, fr.1.length, 0⟩
    | [] => some ⟨sg.1, m, fr.1.length, 0⟩

/-- The number denoted by a numeral. -/
def Decimal.value {α : Type} [Field α] (d : Decimal) : α :=
  (if d.neg then -1 else 1) * (d.mantissa : α) / 10 ^ d.scale * 10 ^ d.exp

/-- The content of a zero-initialised pose field after
`istringstream iss(field); iss >> p.field;`: the number read, or zero when the
extraction fails. -/
def extract_double {α : Type} [Field α] (field : String) : α :=
  match scan_double field.toList with
  | some d => d.value
  | none => 0

/-! ## Pose broadcasts -/

/-- `get_rover_name_from_message`: the text before the first comma. -/
def get_rover_name_from_message (msg : String) : String :=
  String.mk (getline msg.toList ',').1

/-- `get_pose_from_message`: four `getline` calls split the text at commas; the
second, third and fourth fields are extracted into a fresh pose.  `rd` is the
extraction of one field into a zero-initialised member. -/
def get_pose_from_message {α : Type} (rd : String → α) (msg : String) : pose α :=
  let f0 := getline msg.toList ','
  let f1 := getline f0.2 ','
  let f2 := getline f1.2 ','
  let f3 := getline f2.2 ','
  ⟨rd (String.mk f1.1), rd (String.mk f2.1), rd (String.mk f3.1)⟩

/-- `parse_pose_message`: the first three branches compare the name carried by
the message, the last three compare the global `rover_name`. -/
def parse_pose_message {α : Type} (rd : String → α) (st : State α) (msg : String) :
    State α × List (Output α) :=
  let incoming_rover_name := get_rover_name_from_message msg
  let incoming_pose := get_pose_from_message rd msg
  if incoming_rover_name = "ajax" then
    ({ st with all_rovers := Function.update st.all_rovers 0 incoming_pose }, [])
  else if incoming_rover_name = "aeneas" then
    ({ st with all_rovers := Function.update st.all_rovers 1 incoming_pose }, [])
  else if incoming_rover_name = "achilles" then
    ({ st with all_rovers := Function.update st.all_rovers 2 incoming_pose }, [])
  else if st.rover_name = "diomedes" then
    ({ st with all_rovers := Function.update st.all_rovers 3 incoming_pose }, [])
  else if st.rover_name = "hector" then
    ({ st with all_rovers := Function.update st.all_rovers 4 incoming_pose }, [])
  else if st.rover_name = "paris" then
    ({ st with all_rovers := Function.update st.all_rovers 5 incoming_pose }, [])
  else
    (st, [Output.cout "We missed something."])

/-! ## Headings and neighbours -/

/-- `calculate_global_average_heading`: the accumulators `u_x`, `u_y` start at
zero and run over the six roster entries; the result is stored in
`global_av_heading` and returned.  (The assignment of the uninitialised local
to the global at the head of the function is overwritten before the return and
is left out, here and in the local variant.) -/
def calculate_global_average_heading {α : Type} [LinearOrderedField α] (ops : Libm α)
    (st : State α) : State α × α :=
  let u := (List.finRange 6).foldl
    (fun (u : α × α) i =>
      (u.1 + ops.cos (st.all_rovers i).theta, u.2 + ops.sin (st.all_rovers i).theta))
    (0, 0)
  let h := ops.atan2 u.2 u.1
  ({ st with global_av_heading := h }, h)

/-- The name comparison chain at the head of `calculate_neighbors`: the slot of
the rover called `rover_name`, slot `0` for a name outside the chain. -/
def my_index_of (rover_name : String) : Fin 6 :=
  if rover_name = "ajax" then 0
  else if rover_name = "aeneas" then 1
  else if rover_name = "achilles" then 2
  else if rover_name = "diomedes" then 3
  else if rover_name = "hector" then 4
  else if rover_name = "paris" then 5
  else 0

/-- One iteration of the loop of `calculate_neighbors` for the index `i`.
`1 / neighbors.size()` is a division of integers. -/
def neighbors_step {α : Type} [LinearOrderedField α] (ops : Libm α) (my_pose : pose α)
    (my_index : Fin 6) (st : State α) (i : Fin 6) : State α :=
  if i ≠ my_index then
    if ops.hypot (my_pose.x - (st.all_rovers i).x) (my_pose.y - (st.all_rovers i).y) < 2 then
      let nb := st.neighbors ++ [st.all_rovers i]
      { st with
        neighbors := nb
        average_x := st.average_x
          + (my_pose.x + ((1 / nb.length : Nat) : α) * (my_pose.x - (st.all_rovers i).x))
        average_y := st.average_y
          + (my_pose.y + ((1 / nb.length : Nat) : α) * (my_pose.y - (st.all_rovers i).y)) }
    else st
  else st

/-- `calculate_neighbors(rover_name)`: in every branch of the name chain
`my_pose` is `all_rovers[my_index]`.  The list is cleared, the loop runs over
`0..5`, and `direction_theta` is set from the accumulators `average_x`,
`average_y`, which are globals and are not assigned before the loop. -/
def calculate_neighbors {α : Type} [LinearOrderedField α] (ops : Libm α) (st : State α)
    (rover_name : String) : State α :=
  let my_index := my_index_of rover_name
  let my_pose := st.all_rovers my_index
  let st1 := (List.finRange 6).foldl (neighbors_step ops my_pose my_index)
    { st with neighbors := [] }
  { st1 with direction_theta := ops.atan2 st1.average_y st1.average_x }

/-- `calculate_local_average_heading`: as the global one, over `neighbors`. -/
def calculate_local_average_heading {α : Type} [LinearOrderedField α] (ops : Libm α)
    (st : State α) : State α × α :=
  let u := st.neighbors.foldl
    (fun (u : α × α) p => (u.1 + ops.cos p.theta, u.2 + ops.sin p.theta))
    (0, 0)
  let h := ops.atan2 u.2 u.1
  ({ st with global_local_heading := h }, h)

/-- `poseHandler`: parse the broadcast, then recompute both headings and the
neighbours of this rover, and publish them. -/
def poseHandler {α : Type} [LinearOrderedField α] (ops : Libm α) (rd : String → α)
    (st : State α) (msg : String) : State α × List (Output α) :=
  let r1 := parse_pose_message rd st msg
  let r2 := calculate_global_average_heading ops r1.1
  let st3 := calculate_neighbors ops r2.1 r2.1.rover_name
  let r4 := calculate_local_average_heading ops st3
  (r4.1, r1.2 ++
    [Output.debug_publisher msg r4.1.rover_name r2.2 r4.2
        (r4.1.all_rovers 0).theta (r4.1.all_rovers 1).theta (r4.1.all_rovers 2).theta,
      Output.globalAverageHeadingPublisher r2.2,
      Output.localAverageHeadingPublisher r4.2])

/-! ## Velocity commands and the control tick -/

/-- `setVelocity`: restart the kill switch timer, then publish the scaled
command. -/
def setVelocity {α : Type} [LinearOrderedField α] (linearVel angularVel : α) :
    List (Output α) :=
  [Output.killSwitchTimer_stop, Output.killSwitchTimer_start,
    Output.velocityPublish (linearVel * 1.3) (angularVel * 8)]

/-- `modeHandler`: store the mode and command a stop. -/
def modeHandler {α : Type} [LinearOrderedField α] (st : State α) (data : Nat) :
    State α × List (Output α) :=
  ({ st with simulation_mode := (data : Int) }, setVelocity 0 0)

/-- `joyCmdHandler`: the command is forwarded in the modes `0` and `1` only. -/
def joyCmdHandler {α : Type} [LinearOrderedField α] (st : State α)
    (linear_x angular_z : α) : List (Output α) :=
  if st.simulation_mode = 0 ∨ st.simulation_mode = 1 then
    setVelocity linear_x angular_z
  else []

/-- `killSwitchTimerEventHandler`: command a stop (the log line is left
out). -/
def killSwitchTimerEventHandler {α : Type} [LinearOrderedField α] : List (Output α) :=
  setVelocity 0 0

/-- `mobilityStateMachine`, one tick of the control timer.  `now` is the value
of `ros::Time::now().toSec()`. -/
def mobilityStateMachine {α : Type} [LinearOrderedField α] (now : α) (st : State α) :
    State α × List (Output α) :=
  let pose_message : Output α :=
    Output.posePublisher st.rover_name st.current_location.x st.current_location.y
      st.current_location.theta
  if st.simulation_mode = 2 ∨ st.simulation_mode = 3 then
    let st1 : State α :=
      if st.transitions_to_auto = 0 then
        { st with
          transitions_to_auto := st.transitions_to_auto + 1
          time_stamp_transition_to_auto := now }
      else st
    if st1.state_machine_state = STATE_MACHINE_TRANSLATE then
      let angular_velocity : α := KP * (st1.direction_theta - st1.current_location.theta)
      let linear_velocity : α := 0.05
      (st1, setVelocity linear_velocity angular_velocity ++
        [pose_message, Output.stateMachinePublish "TRANSLATING"])
    else
      (st1, [pose_message, Output.stateMachinePublish "DEFAULT CASE: SOMETHING WRONG!!!!"])
  else
    (st, [pose_message,
      Output.stateMachinePublish
        ("WAITING, " ++ ("CURRENT MODE: " ++ toString st.simulation_mode))])

/-! ## Interpretation over the real numbers -/

/-- The functions of `<math.h>` over the reals: `atan2 y x` is the argument
of `x + y i` in `(-π, π]` (and `0` at the origin), `hypot` is the Euclidean
norm. -/
noncomputable def realLibm : Libm ℝ where
  cos := Real.cos
  sin := Real.sin
  atan2 := fun y x => Complex.arg ⟨x, y⟩
  hypot := fun a b => Real.sqrt (a ^ 2 + b ^ 2)

/-- Euclidean distance between the positions of two poses. -/
noncomputable def euclidean_distance (p q : pose ℝ) : ℝ :=
  Real.sqrt ((p.x - q.x) ^ 2 + (p.y - q.y) ^ 2)

/-- The six names of the enumeration with their slots. -/
def rover_slots : List (String × Fin 6) :=
  [("ajax", 0), ("aeneas", 1), ("achilles", 2), ("diomedes", 3), ("hector", 4), ("paris", 5)]

/-- One iteration of the loop of `calculate_neighbors`, seen on the three
variables it writes: the list and the two accumulators. -/
def bearing_step {α : Type} [LinearOrderedField α] (ops : Libm α) (r : Fin 6 → pose α)
    (my_pose : pose α) (my_index : Fin 6) (t : List (pose α) × α × α) (i : Fin 6) :
    List (pose α) × α × α :=
  if i ≠ my_index ∧ ops.hypot (my_pose.x - (r i).x) (my_pose.y - (r i).y) < 2 then
    (t.1 ++ [r i],
      t.2.1 + (my_pose.x + ((1 / (t.1 ++ [r i]).length : Nat) : α) * (my_pose.x - (r i).x)),
      t.2.2 + (my_pose.y + ((1 / (t.1 ++ [r i]).length : Nat) : α) * (my_pose.y - (r i).y)))
  else t

/-- Whether an effect is a velocity command. -/
def Output.isVelocity {α : Type} : Output α → Bool
  | Output.velocityPublish _ _ => true
  | _ => false

/-! ## Auxiliary facts -/

theorem extract_double_of_scan {α : Type} [Field α] (field : String) (d : Decimal)
    (h : scan_double field.toList = some d) : (extract_double field : α) = d.value := by
  unfold extract_double
  rw [h]

/-- The pose decoded from a message whose second, third and fourth fields are
`a`, `b`, `c`. -/
theorem get_pose_from_message_fields {α : Type} (rd : String → α) (msg a b c : String)
    (ha : String.mk (getline (getline msg.toList ',').2 ',').1 = a)
    (hb : String.mk (getline (getline (getline msg.toList ',').2 ',').2 ',').1 = b)
    (hc : String.mk
      (getline (getline (getline (getline msg.toList ',').2 ',').2 ',').2 ',').1 = c) :
    get_pose_from_message rd msg = ⟨rd a, rd b, rd c⟩ := by
  subst ha hb hc
  rfl

theorem extract_double_one {α : Type} [Field α] : (extract_double "1" : α) = 1 := by
  rw [extract_double_of_scan "1" ⟨false, 1, 0, 0⟩ (by decide)]
  simp [Decimal.value]

theorem extract_double_two {α : Type} [Field α] : (extract_double "2" : α) = 2 := by
  rw [extract_double_of_scan "2" ⟨false, 2, 0, 0⟩ (by decide)]
  simp [Decimal.value]

theorem extract_double_three {α : Type} [Field α] : (extract_double "3" : α) = 3 := by
  rw [extract_double_of_scan "3" ⟨false, 3, 0, 0⟩ (by decide)]
  simp [Decimal.value]

/-- Writing slot `k` leaves the other slots alone. -/
theorem update_other {α : Type} (r : Fin 6 → pose α) (k j : Fin 6) (p : pose α)
    (h : j ≠ k) : Function.update r k p j = r j :=
  Function.update_noteq h p r

/-- C1 (evaluation at the failing input): on the rover named "diomedes", with
the roster in its initial state, the broadcast "foo,1,2,3" carries a name
outside the enumeration, and yet `parse_pose_message` stores its pose
`(1, 2, 3)` in slot 3: the roster is changed. -/
theorem C1_unknown_name_is_filed :
    get_rover_name_from_message "foo,1,2,3" = "foo"
    ∧ (∀ e ∈ rover_slots, e.1 ≠ "foo")
    ∧ (parse_pose_message (extract_double : String → ℚ)
        (State.initial "diomedes") "foo,1,2,3").1.all_rovers 3 = ⟨1, 2, 3⟩
    ∧ (parse_pose_message (extract_double : String → ℚ)
        (State.initial "diomedes") "foo,1,2,3").1.all_rovers
        ≠ (State.initial "diomedes" : State ℚ).all_rovers := by
  have hn : get_rover_name_from_message "foo,1,2,3" = "foo" := by decide
  have hp : get_pose_from_message (extract_double : String → ℚ) "foo,1,2,3" = ⟨1, 2, 3⟩ := by
    rw [get_pose_from_message_fields extract_double "foo,1,2,3" "1" "2" "3"
      (by decide) (by decide) (by decide),
      extract_double_one, extract_double_two, extract_double_three]
  have h3 : (parse_pose_message (extract_double : String → ℚ)
      (State.initial "diomedes") "foo,1,2,3").1.all_rovers 3 = ⟨1, 2, 3⟩ := by
    simp [parse_pose_message, hn, hp, State.initial]
  refine ⟨hn, by decide, h3, ?_⟩
  intro h
  rw [h] at h3
  simp [State.initial, pose.zero] at h3

/-- C2 (evaluation at the failing input): on the rover named "ajax", with the
roster in its initial state, the well-formed broadcast "diomedes,1,2,3" is not
stored: slot 3 keeps the zero pose, no slot changes and the fallback line is
printed.  On the rover named "hector" the same broadcast is stored in slot 4
(hector) and slot 3 (diomedes) keeps the zero pose. -/
theorem C2_diomedes_broadcast_misfiled :
    get_rover_name_from_message "diomedes,1,2,3" = "diomedes"
    ∧ get_pose_from_message (extract_double : String → ℚ) "diomedes,1,2,3" = ⟨1, 2, 3⟩
    ∧ (parse_pose_message (extract_double : String → ℚ)
        (State.initial "ajax") "diomedes,1,2,3").1.all_rovers
        = (State.initial "ajax" : State ℚ).all_rovers
    ∧ (parse_pose_message (extract_double : String → ℚ)
        (State.initial "ajax") "diomedes,1,2,3").1.all_rovers 3 ≠ ⟨1, 2, 3⟩
    ∧ (parse_pose_message (extract_double : String → ℚ)
        (State.initial "ajax") "diomedes,1,2,3").2 = [Output.cout "We missed something."]
    ∧ (parse_pose_message (extract_double : String → ℚ)
        (State.initial "hector") "diomedes,1,2,3").1.all_rovers 4 = ⟨1, 2, 3⟩
    ∧ (parse_pose_message (extract_double : String → ℚ)
        (State.initial "hector") "diomedes,1,2,3").1.all_rovers 3 = pose.zero := by
  have hn : get_rover_name_from_message "diomedes,1,2,3" = "diomedes" := by decide
  have hp : get_pose_from_message (extract_double : String → ℚ) "diomedes,1,2,3"
      = ⟨1, 2, 3⟩ := by
    rw [get_pose_from_message_fields extract_double "diomedes,1,2,3" "1" "2" "3"
      (by decide) (by decide) (by decide),
      extract_double_one, extract_double_two, extract_double_three]
  refine ⟨hn, hp, ?_, ?_, ?_, ?_, ?_⟩
  · simp [parse_pose_message, hn, State.initial]
  · simp [parse_pose_message, hn, State.initial, pose.zero]
  · simp [parse_pose_message, hn, State.initial]
  · simp [parse_pose_message, hn, hp, State.initial]
  · simp [parse_pose_message, hn, hp, State.initial, Function.update]

/-- The loop of `calculate_neighbors` never writes the roster. -/
theorem neighbors_step_all_rovers {α : Type} [LinearOrderedField α] (ops : Libm α)
    (my_pose : pose α) (my_index : Fin 6) (st : State α) (i : Fin 6) :
    (neighbors_step ops my_pose my_index st i).all_rovers = st.all_rovers := by
  unfold neighbors_step
  split_ifs <;> rfl

/-- What one iteration appends to the list. -/
theorem neighbors_step_neighbors {α : Type} [LinearOrderedField α] (ops : Libm α)
    (my_pose : pose α) (my_index : Fin 6) (st : State α) (i : Fin 6) :
    (neighbors_step ops my_pose my_index st i).neighbors =
      st.neighbors ++
        (if i ≠ my_index ∧
            ops.hypot (my_pose.x - (st.all_rovers i).x) (my_pose.y - (st.all_rovers i).y) < 2
          then [st.all_rovers i] else []) := by
  unfold neighbors_step
  split_ifs with h1 h2 h3 h4 h5
  · rfl
  · exact absurd ⟨h1, h2⟩ h3
  · exact absurd h4.2 h2
  · simp
  · exact absurd h5.1 h1
  · simp

/-- The loop over any list of indices: roster unchanged, and the list grows by
the roster entries of the indices that pass both tests, in order. -/
theorem neighbors_loop {α : Type} [LinearOrderedField α] (ops : Libm α)
    (my_pose : pose α) (my_index : Fin 6) (l : List (Fin 6)) (st : State α) :
    (l.foldl (neighbors_step ops my_pose my_index) st).all_rovers = st.all_rovers
    ∧ (l.foldl (neighbors_step ops my_pose my_index) st).neighbors =
      st.neighbors ++
        (l.filter (fun i => decide (i ≠ my_index ∧
            ops.hypot (my_pose.x - (st.all_rovers i).x)
              (my_pose.y - (st.all_rovers i).y) < 2))).map st.all_rovers := by
  induction l generalizing st with
  | nil => simp
  | cons i t ih =>
    obtain ⟨ih1, ih2⟩ := ih (neighbors_step ops my_pose my_index st i)
    rw [List.foldl_cons]
    refine ⟨by rw [ih1, neighbors_step_all_rovers], ?_⟩
    rw [ih2, neighbors_step_all_rovers, neighbors_step_neighbors, List.filter_cons]
    by_cases h : i ≠ my_index ∧
        ops.hypot (my_pose.x - (st.all_rovers i).x) (my_pose.y - (st.all_rovers i).y) < 2
    · simp [h]
    · simp [h]

/-- The slot computed by the name chain for each name of the enumeration. -/
theorem my_index_of_slot (self : String) (s : Fin 6) (hs : (self, s) ∈ rover_slots) :
    my_index_of self = s := by
  simp only [rover_slots, List.mem_cons, Prod.mk.injEq, List.mem_singleton,
    List.not_mem_nil, or_false] at hs
  rcases hs with ⟨rfl, rfl⟩ | ⟨rfl, rfl⟩ | ⟨rfl, rfl⟩ | ⟨rfl, rfl⟩ | ⟨rfl, rfl⟩ | ⟨rfl, rfl⟩ <;>
    decide

/-- All but one of the six indices. -/
theorem others_length (s : Fin 6) :
    ((List.finRange 6).filter (fun i => decide (i ≠ s))).length = 5 := by
  revert s
  decide

/-- The list computed by `calculate_neighbors`, for any `<math.h>`. -/
theorem calculate_neighbors_neighbors {α : Type} [LinearOrderedField α] (ops : Libm α)
    (st : State α) (self : String) :
    (calculate_neighbors ops st self).neighbors =
      ((List.finRange 6).filter (fun i => decide (i ≠ my_index_of self ∧
          ops.hypot ((st.all_rovers (my_index_of self)).x - (st.all_rovers i).x)
            ((st.all_rovers (my_index_of self)).y - (st.all_rovers i).y) < 2))).map
        st.all_rovers := by
  unfold calculate_neighbors
  simp only []
  rw [(neighbors_loop ops _ _ _ _).2]
  simp

/-- C4: for every roster over the reals and every name `self` of the
enumeration with slot `s`, the list left by `calculate_neighbors self` is, in
slot order, the roster poses at the indices `i ≠ s` whose Euclidean distance to
the pose at `s` is strictly below 2 (so an entry at distance exactly 2 and the
slot of `self` are left out); it has at most 5 entries. -/
theorem C4_neighbors_within_threshold (st : State ℝ) (self : String) (s : Fin 6)
    (hs : (self, s) ∈ rover_slots) :
    (calculate_neighbors realLibm st self).neighbors =
      ((List.finRange 6).filter (fun i => decide (i ≠ s ∧
          euclidean_distance (st.all_rovers s) (st.all_rovers i) < 2))).map st.all_rovers
    ∧ (calculate_neighbors realLibm st self).neighbors.length ≤ 5 := by
  have key : (calculate_neighbors realLibm st self).neighbors =
      ((List.finRange 6).filter (fun i => decide (i ≠ s ∧
          euclidean_distance (st.all_rovers s) (st.all_rovers i) < 2))).map st.all_rovers := by
    rw [calculate_neighbors_neighbors, my_index_of_slot self s hs]
    rfl
  refine ⟨key, ?_⟩
  rw [key, List.length_map, ← others_length s]
  have hsplit : (List.finRange 6).filter (fun i => decide (i ≠ s ∧
      euclidean_distance (st.all_rovers s) (st.all_rovers i) < 2)) =
      ((List.finRange 6).filter (fun i => decide (i ≠ s))).filter
        (fun i => decide (euclidean_distance (st.all_rovers s) (st.all_rovers i) < 2)) := by
    rw [List.filter_filter]
    congr 1
    funext i
    simp [Bool.and_comm]
  rw [hsplit]
  exact List.length_filter_le _ _

/-- C4, instance: the rover "ajax" on the initial roster. -/
theorem C4_neighbors_within_threshold_witness :
    ("ajax", (0 : Fin 6)) ∈ rover_slots
    ∧ ((calculate_neighbors realLibm (State.initial "ajax") "ajax").neighbors =
        ((List.finRange 6).filter (fun i => decide (i ≠ 0 ∧
          euclidean_distance ((State.initial "ajax" : State ℝ).all_rovers 0)
            ((State.initial "ajax" : State ℝ).all_rovers i) < 2))).map
          (State.initial "ajax" : State ℝ).all_rovers
      ∧ (calculate_neighbors realLibm (State.initial "ajax") "ajax").neighbors.length ≤ 5) :=
  ⟨by simp [rover_slots],
    C4_neighbors_within_threshold (State.initial "ajax") "ajax" 0 (by simp [rover_slots])⟩

/-! ## The two-rover scenario -/

/-- The threshold test over the reals. -/
theorem hypot_lt_two (a b : ℝ) : realLibm.hypot a b < 2 ↔ a ^ 2 + b ^ 2 < 4 := by
  show Real.sqrt (a ^ 2 + b ^ 2) < 2 ↔ a ^ 2 + b ^ 2 < 4
  rw [Real.sqrt_lt' (by norm_num : (0 : ℝ) < 2)]
  norm_num

theorem finRange_six : List.finRange 6 = [0, 1, 2, 3, 4, 5] := by
  decide

/-- C5 (counterexample): with "ajax" at `(0,0,0)`, "aeneas" at `(1,0,π/2)` and
the four other roster entries still at their initial zero pose,
`calculate_neighbors "ajax"` yields five entries (the pose of "aeneas" and the
four zero poses, which lie at distance 0), and the local heading that follows
is not `π/2`. -/
theorem C5_initial_roster_has_five_neighbors :
    (calculate_neighbors realLibm
        { (State.initial "ajax" : State ℝ) with
          all_rovers := Function.update (fun _ => pose.zero) 1 ⟨1, 0, Real.pi / 2⟩ }
        "ajax").neighbors
      = [⟨1, 0, Real.pi / 2⟩, pose.zero, pose.zero, pose.zero, pose.zero]
    ∧ (calculate_neighbors realLibm
        { (State.initial "ajax" : State ℝ) with
          all_rovers := Function.update (fun _ => pose.zero) 1 ⟨1, 0, Real.pi / 2⟩ }
        "ajax").neighbors.length ≠ 1
    ∧ (calculate_local_average_heading realLibm
        (calculate_neighbors realLibm
          { (State.initial "ajax" : State ℝ) with
            all_rovers := Function.update (fun _ => pose.zero) 1 ⟨1, 0, Real.pi / 2⟩ }
          "ajax")).2 ≠ Real.pi / 2 := by
  have hn : (calculate_neighbors realLibm
        { (State.initial "ajax" : State ℝ) with
          all_rovers := Function.update (fun _ => pose.zero) 1 ⟨1, 0, Real.pi / 2⟩ }
        "ajax").neighbors
      = [⟨1, 0, Real.pi / 2⟩, pose.zero, pose.zero, pose.zero, pose.zero] := by
    rw [calculate_neighbors_neighbors, show my_index_of "ajax" = 0 from by decide, finRange_six]
    simp [hypot_lt_two, List.filter_cons, Function.update, pose.zero]
  refine ⟨hn, by rw [hn]; simp, ?_⟩
  unfold calculate_local_average_heading
  simp only []
  rw [hn]
  simp only [List.foldl_cons, List.foldl_nil, pose.zero]
  show Complex.arg _ ≠ _
  rw [Ne, Complex.arg_eq_pi_div_two_iff]
  simp [realLibm]
  intro h
  norm_num at h

/-- C5 (amended): for every state whose roster has "ajax" at `(0,0,0)`,
"aeneas" at `(1,0,π/2)` and each of the four other entries at Euclidean
distance at least 2 from "ajax", `calculate_neighbors "ajax"` followed by
`calculate_local_average_heading` gives a list holding exactly the pose of
"aeneas" and the local heading `π/2`. -/
theorem C5_two_rover_scenario (st : State ℝ)
    (hA : st.all_rovers 0 = ⟨0, 0, 0⟩)
    (hB : st.all_rovers 1 = ⟨1, 0, Real.pi / 2⟩)
    (hfar : ∀ i : Fin 6, i ≠ 0 → i ≠ 1 →
      2 ≤ euclidean_distance (st.all_rovers 0) (st.all_rovers i)) :
    (calculate_neighbors realLibm st "ajax").neighbors = [⟨1, 0, Real.pi / 2⟩]
    ∧ (calculate_local_average_heading realLibm
        (calculate_neighbors realLibm st "ajax")).2 = Real.pi / 2 := by
  have hfar2 : ∀ i : Fin 6, i ≠ 0 → i ≠ 1 →
      ¬ realLibm.hypot ((st.all_rovers 0).x - (st.all_rovers i).x)
        ((st.all_rovers 0).y - (st.all_rovers i).y) < 2 := by
    intro i h0 h1
    exact not_lt.mpr (hfar i h0 h1)
  have hn : (calculate_neighbors realLibm st "ajax").neighbors = [⟨1, 0, Real.pi / 2⟩] := by
    rw [calculate_neighbors_neighbors, show my_index_of "ajax" = 0 from by decide, finRange_six]
    have h2 := hfar2 2 (by decide) (by decide)
    have h3 := hfar2 3 (by decide) (by decide)
    have h4 := hfar2 4 (by decide) (by decide)
    have h5 := hfar2 5 (by decide) (by decide)
    have h1 : realLibm.hypot ((st.all_rovers 0).x - (st.all_rovers 1).x)
        ((st.all_rovers 0).y - (st.all_rovers 1).y) < 2 := by
      rw [hypot_lt_two, hA, hB]
      norm_num
    simp [List.filter_cons, h1, h2, h3, h4, h5]
    exact hB
  refine ⟨hn, ?_⟩
  unfold calculate_local_average_heading
  simp only []
  rw [hn]
  simp only [List.foldl_cons, List.foldl_nil]
  show Complex.arg ⟨0 + Real.cos (Real.pi / 2), 0 + Real.sin (Real.pi / 2)⟩ = Real.pi / 2
  rw [Complex.arg_eq_pi_div_two_iff]
  simp

/-- C5 (amended), instance: the four other rovers stand at `(5, 5)`. -/
theorem C5_two_rover_scenario_witness :
    (calculate_neighbors realLibm
        { (State.initial "ajax" : State ℝ) with
          all_rovers := fun i =>
            if i = 0 then ⟨0, 0, 0⟩ else if i = 1 then ⟨1, 0, Real.pi / 2⟩ else ⟨5, 5, 0⟩ }
        "ajax").neighbors = [⟨1, 0, Real.pi / 2⟩]
    ∧ (calculate_local_average_heading realLibm
        (calculate_neighbors realLibm
          { (State.initial "ajax" : State ℝ) with
            all_rovers := fun i =>
              if i = 0 then ⟨0, 0, 0⟩ else if i = 1 then ⟨1, 0, Real.pi / 2⟩ else ⟨5, 5, 0⟩ }
          "ajax")).2 = Real.pi / 2 :=
  C5_two_rover_scenario
    { (State.initial "ajax" : State ℝ) with
      all_rovers := fun i =>
        if i = 0 then ⟨0, 0, 0⟩ else if i = 1 then ⟨1, 0, Real.pi / 2⟩ else ⟨5, 5, 0⟩ }
    (by simp) (by simp)
    (by
      intro i h0 h1
      simp only [euclidean_distance, h0, h1, if_true, if_false]
      simp
      apply Real.le_sqrt_of_sq_le
      norm_num)

/-! ## Circular means -/

/-- Both headings are values of `atan2`, hence at most `π`. -/
theorem local_heading_le_pi (st : State ℝ) :
    (calculate_local_average_heading realLibm st).2 ≤ Real.pi :=
  Complex.arg_le_pi _

theorem global_heading_le_pi (st : State ℝ) :
    (calculate_global_average_heading realLibm st).2 ≤ Real.pi :=
  Complex.arg_le_pi _

/-- The accumulators after a run over poses that all have the heading `θ`. -/
theorem sum_equal_headings (θ : ℝ) (l : List (pose ℝ)) (h : ∀ p ∈ l, p.theta = θ)
    (u : ℝ × ℝ) :
    l.foldl (fun (u : ℝ × ℝ) p => (u.1 + realLibm.cos p.theta, u.2 + realLibm.sin p.theta)) u
      = (u.1 + l.length * Real.cos θ, u.2 + l.length * Real.sin θ) := by
  induction l generalizing u with
  | nil => simp
  | cons p t ih =>
    rw [List.foldl_cons, ih (fun q hq => h q (List.mem_cons_of_mem p hq)),
      h p (List.mem_cons_self p t)]
    simp only [realLibm, List.length_cons, Nat.cast_add, Nat.cast_one]
    ext <;> simp <;> ring

/-- The same for a run over roster indices. -/
theorem sum_equal_roster_headings (θ : ℝ) (r : Fin 6 → pose ℝ) (l : List (Fin 6))
    (h : ∀ i, (r i).theta = θ) (u : ℝ × ℝ) :
    l.foldl (fun (u : ℝ × ℝ) i =>
        (u.1 + realLibm.cos (r i).theta, u.2 + realLibm.sin (r i).theta)) u
      = (u.1 + l.length * Real.cos θ, u.2 + l.length * Real.sin θ) := by
  induction l generalizing u with
  | nil => simp
  | cons i t ih =>
    rw [List.foldl_cons, ih, h i]
    simp only [realLibm, List.length_cons, Nat.cast_add, Nat.cast_one]
    ext <;> simp <;> ring

/-- The direction of a positive multiple of the unit vector at angle `θ`. -/
theorem atan2_of_scaled_unit (n : ℝ) (hn : 0 < n) (θ : ℝ) (h1 : -Real.pi < θ)
    (h2 : θ ≤ Real.pi) :
    realLibm.atan2 (0 + n * Real.sin θ) (0 + n * Real.cos θ) = θ := by
  show Complex.arg ⟨0 + n * Real.cos θ, 0 + n * Real.sin θ⟩ = θ
  have h := Complex.arg_mul_cos_add_sin_mul_I hn (Set.mem_Ioc.mpr ⟨h1, h2⟩)
  have hz : (⟨0 + n * Real.cos θ, 0 + n * Real.sin θ⟩ : ℂ)
      = (n : ℂ) * (Complex.cos θ + Complex.sin θ * Complex.I) := by
    apply Complex.ext
    · simp [← Complex.ofReal_cos, ← Complex.ofReal_sin]
    · simp [← Complex.ofReal_cos, ← Complex.ofReal_sin]
  rw [hz]
  exact h

/-- C6 (counterexample): for the heading `2π`, a one-element neighbour list and
a roster whose six entries all have that heading give a local and a global
heading different from `2π`. -/
theorem C6_heading_two_pi_not_returned :
    (calculate_local_average_heading realLibm
        { (State.initial "ajax" : State ℝ) with neighbors := [⟨0, 0, 2 * Real.pi⟩] }).2
      ≠ 2 * Real.pi
    ∧ (calculate_global_average_heading realLibm
        { (State.initial "ajax" : State ℝ) with
          all_rovers := fun _ => ⟨0, 0, 2 * Real.pi⟩ }).2
      ≠ 2 * Real.pi := by
  have hpi : Real.pi < 2 * Real.pi := by linarith [Real.pi_pos]
  constructor
  · exact ne_of_lt (lt_of_le_of_lt (local_heading_le_pi _) hpi)
  · exact ne_of_lt (lt_of_le_of_lt (global_heading_le_pi _) hpi)

/-- C6 (amended): for every real angle `θ` with `-π < θ ≤ π`, if every pose of
a non-empty neighbour list has heading `θ` then
`calculate_local_average_heading` returns `θ`, and if all six roster entries
have heading `θ` then `calculate_global_average_heading` returns `θ`. -/
theorem C6_equal_headings_mean (θ : ℝ) (h1 : -Real.pi < θ) (h2 : θ ≤ Real.pi)
    (sl sg : State ℝ) (hne : sl.neighbors ≠ []) (hl : ∀ p ∈ sl.neighbors, p.theta = θ)
    (hg : ∀ i, (sg.all_rovers i).theta = θ) :
    (calculate_local_average_heading realLibm sl).2 = θ
    ∧ (calculate_global_average_heading realLibm sg).2 = θ := by
  constructor
  · unfold calculate_local_average_heading
    simp only []
    rw [sum_equal_headings θ sl.neighbors hl]
    apply atan2_of_scaled_unit _ _ θ h1 h2
    exact Nat.cast_pos.mpr (List.length_pos.mpr hne)
  · unfold calculate_global_average_heading
    simp only []
    rw [sum_equal_roster_headings θ sg.all_rovers _ hg]
    apply atan2_of_scaled_unit _ _ θ h1 h2
    simp

/-- C6 (amended), instance: the heading `π`, at the edge of the range, with
two neighbours for the local mean. -/
theorem C6_equal_headings_mean_witness :
    (calculate_local_average_heading realLibm
        { (State.initial "ajax" : State ℝ) with
          neighbors := [⟨0, 0, Real.pi⟩, ⟨1, 1, Real.pi⟩] }).2 = Real.pi
    ∧ (calculate_global_average_heading realLibm
        { (State.initial "ajax" : State ℝ) with
          all_rovers := fun _ => ⟨0, 0, Real.pi⟩ }).2 = Real.pi :=
  C6_equal_headings_mean Real.pi (by linarith [Real.pi_pos]) le_rfl
    { (State.initial "ajax" : State ℝ) with neighbors := [⟨0, 0, Real.pi⟩, ⟨1, 1, Real.pi⟩] }
    { (State.initial "ajax" : State ℝ) with all_rovers := fun _ => ⟨0, 0, Real.pi⟩ }
    (by simp) (by simp) (by simp)

/-! ## The bearing accumulators -/

theorem extract_double_zero {α : Type} [Field α] : (extract_double "0" : α) = 0 := by
  rw [extract_double_of_scan "0" ⟨false, 0, 0, 0⟩ (by decide)]
  simp [Decimal.value]

theorem extract_double_ten {α : Type} [Field α] : (extract_double "10" : α) = 10 := by
  rw [extract_double_of_scan "10" ⟨false, 10, 0, 0⟩ (by decide)]
  simp [Decimal.value]

theorem neighbors_step_bearing {α : Type} [LinearOrderedField α] (ops : Libm α)
    (my_pose : pose α) (my_index : Fin 6) (st : State α) (i : Fin 6) :
    ((neighbors_step ops my_pose my_index st i).neighbors,
      (neighbors_step ops my_pose my_index st i).average_x,
      (neighbors_step ops my_pose my_index st i).average_y)
    = bearing_step ops st.all_rovers my_pose my_index
        (st.neighbors, st.average_x, st.average_y) i := by
  unfold neighbors_step bearing_step
  by_cases h1 : i ≠ my_index
  · by_cases h2 : ops.hypot (my_pose.x - (st.all_rovers i).x)
        (my_pose.y - (st.all_rovers i).y) < 2
    · rw [if_pos h1, if_pos h2, if_pos ⟨h1, h2⟩]
    · rw [if_pos h1, if_neg h2, if_neg (fun h => h2 h.2)]
  · rw [if_neg h1, if_neg (fun h => h1 h.1)]

theorem neighbors_loop_bearing {α : Type} [LinearOrderedField α] (ops : Libm α)
    (my_pose : pose α) (my_index : Fin 6) (l : List (Fin 6)) (st : State α) :
    ((l.foldl (neighbors_step ops my_pose my_index) st).neighbors,
      (l.foldl (neighbors_step ops my_pose my_index) st).average_x,
      (l.foldl (neighbors_step ops my_pose my_index) st).average_y)
    = l.foldl (bearing_step ops st.all_rovers my_pose my_index)
        (st.neighbors, st.average_x, st.average_y) := by
  induction l generalizing st with
  | nil => rfl
  | cons i t ih =>
    rw [List.foldl_cons, List.foldl_cons, ih, neighbors_step_all_rovers,
      neighbors_step_bearing]

/-- The list, the accumulators and the bearing left by `calculate_neighbors`. -/
theorem calculate_neighbors_bearing {α : Type} [LinearOrderedField α] (ops : Libm α)
    (st : State α) (self : String) (t : List (pose α) × α × α)
    (ht : (List.finRange 6).foldl
        (bearing_step ops st.all_rovers (st.all_rovers (my_index_of self)) (my_index_of self))
        ([], st.average_x, st.average_y) = t) :
    (calculate_neighbors ops st self).neighbors = t.1
    ∧ (calculate_neighbors ops st self).average_x = t.2.1
    ∧ (calculate_neighbors ops st self).average_y = t.2.2
    ∧ (calculate_neighbors ops st self).direction_theta = ops.atan2 t.2.2 t.2.1 := by
  have h := neighbors_loop_bearing ops (st.all_rovers (my_index_of self)) (my_index_of self)
    (List.finRange 6) { st with neighbors := [] }
  rw [ht] at h
  subst h
  exact ⟨rfl, rfl, rfl, rfl⟩

theorem fin6_ne_zero : (1 : Fin 6) ≠ 0 ∧ (2 : Fin 6) ≠ 0 ∧ (3 : Fin 6) ≠ 0 ∧ (4 : Fin 6) ≠ 0
    ∧ (5 : Fin 6) ≠ 0 := by
  decide

theorem neighbors_step_rover_name {α : Type} [LinearOrderedField α] (ops : Libm α)
    (my_pose : pose α) (my_index : Fin 6) (st : State α) (i : Fin 6) :
    (neighbors_step ops my_pose my_index st i).rover_name = st.rover_name := by
  unfold neighbors_step
  split_ifs <;> rfl

theorem neighbors_loop_rover_name {α : Type} [LinearOrderedField α] (ops : Libm α)
    (my_pose : pose α) (my_index : Fin 6) (l : List (Fin 6)) (st : State α) :
    (l.foldl (neighbors_step ops my_pose my_index) st).rover_name = st.rover_name := by
  induction l generalizing st with
  | nil => rfl
  | cons i t ih => rw [List.foldl_cons, ih, neighbors_step_rover_name]

/-- What `poseHandler` leaves in the state after a broadcast that carries the
name "ajax": the roster with slot 0 overwritten, and the list, accumulators and
bearing computed by the loop from the accumulators of the previous state. -/
theorem poseHandler_ajax {α : Type} [LinearOrderedField α] (ops : Libm α)
    (rd : String → α) (st : State α) (msg : String) (p : pose α)
    (t : List (pose α) × α × α)
    (hn : get_rover_name_from_message msg = "ajax")
    (hp : get_pose_from_message rd msg = p)
    (ht : (List.finRange 6).foldl
        (bearing_step ops (Function.update st.all_rovers 0 p)
          (Function.update st.all_rovers 0 p (my_index_of st.rover_name))
          (my_index_of st.rover_name))
        ([], st.average_x, st.average_y) = t) :
    (poseHandler ops rd st msg).1.rover_name = st.rover_name
    ∧ (poseHandler ops rd st msg).1.all_rovers = Function.update st.all_rovers 0 p
    ∧ (poseHandler ops rd st msg).1.neighbors = t.1
    ∧ (poseHandler ops rd st msg).1.average_x = t.2.1
    ∧ (poseHandler ops rd st msg).1.average_y = t.2.2
    ∧ (poseHandler ops rd st msg).1.direction_theta = ops.atan2 t.2.2 t.2.1 := by
  have hparse : (parse_pose_message rd st msg).1
      = { st with all_rovers := Function.update st.all_rovers 0 p } := by
    simp [parse_pose_message, hn, hp]
  have hb := calculate_neighbors_bearing ops
    (calculate_global_average_heading ops
      { st with all_rovers := Function.update st.all_rovers 0 p }).1 st.rover_name t ht
  unfold poseHandler
  simp only []
  rw [hparse]
  refine ⟨?_, ?_, hb.1, hb.2.1, hb.2.2.1, hb.2.2.2⟩
  · exact neighbors_loop_rover_name ops _ _ _ _
  · exact (neighbors_loop ops _ _ _ _).1

/-- C7 (evaluation at the failing input): the rover "ajax" starts from the
initial state and handles the broadcasts "ajax,1,1,0" and then "ajax,10,10,0".
After the second one no other rover is within distance 2 (the list of
neighbours is empty), yet the accumulators are `(6, 6)`, the values left by
the first call, and `direction_theta` is not `0`. -/
theorem C7_bearing_survives_calls :
    (poseHandler realLibm extract_double
        (poseHandler realLibm extract_double (State.initial "ajax") "ajax,1,1,0").1
        "ajax,10,10,0").1.neighbors = []
    ∧ (poseHandler realLibm extract_double
        (poseHandler realLibm extract_double (State.initial "ajax") "ajax,1,1,0").1
        "ajax,10,10,0").1.average_x = 6
    ∧ (poseHandler realLibm extract_double
        (poseHandler realLibm extract_double (State.initial "ajax") "ajax,1,1,0").1
        "ajax,10,10,0").1.average_y = 6
    ∧ (poseHandler realLibm extract_double
        (poseHandler realLibm extract_double (State.initial "ajax") "ajax,1,1,0").1
        "ajax,10,10,0").1.direction_theta ≠ 0 := by
  have hi : my_index_of "ajax" = 0 := by decide
  have hp1 : get_pose_from_message (extract_double : String → ℝ) "ajax,1,1,0" = ⟨1, 1, 0⟩ := by
    rw [get_pose_from_message_fields extract_double "ajax,1,1,0" "1" "1" "0"
      (by decide) (by decide) (by decide), extract_double_one, extract_double_zero]
  have hp2 : get_pose_from_message (extract_double : String → ℝ) "ajax,10,10,0"
      = ⟨10, 10, 0⟩ := by
    rw [get_pose_from_message_fields extract_double "ajax,10,10,0" "10" "10" "0"
      (by decide) (by decide) (by decide), extract_double_ten, extract_double_zero]
  obtain ⟨hname, hros, -, hax, hay, -⟩ :=
    poseHandler_ajax realLibm extract_double (State.initial "ajax" : State ℝ) "ajax,1,1,0"
      ⟨1, 1, 0⟩ ([pose.zero, pose.zero, pose.zero, pose.zero, pose.zero], 6, 6)
      (by decide) hp1
      (by
        show (List.finRange 6).foldl
          (bearing_step realLibm (Function.update (fun _ => pose.zero) 0 ⟨1, 1, 0⟩)
            (Function.update (fun _ => pose.zero) 0 ⟨1, 1, 0⟩ (my_index_of "ajax"))
            (my_index_of "ajax")) ([], 0, 0) = _
        rw [hi, finRange_six]
        simp only [List.foldl_cons, List.foldl_nil, bearing_step, hypot_lt_two,
          Function.update_apply, pose.zero, fin6_ne_zero.1, fin6_ne_zero.2.1,
          fin6_ne_zero.2.2.1, fin6_ne_zero.2.2.2.1, fin6_ne_zero.2.2.2.2, if_false, if_true,
          ne_eq, not_true_eq_false, not_false_eq_true, false_and, true_and]
        norm_num)
  obtain ⟨-, -, hnb, hax2, hay2, hdir⟩ :=
    poseHandler_ajax realLibm extract_double
      (poseHandler realLibm extract_double (State.initial "ajax" : State ℝ) "ajax,1,1,0").1
      "ajax,10,10,0" ⟨10, 10, 0⟩ ([], 6, 6) (by decide) hp2
      (by
        rw [hname, hros, hax, hay]
        show (List.finRange 6).foldl
          (bearing_step realLibm
            (Function.update (Function.update (fun _ => pose.zero) 0 ⟨1, 1, 0⟩) 0 ⟨10, 10, 0⟩)
            (Function.update (Function.update (fun _ => pose.zero) 0 ⟨1, 1, 0⟩) 0 ⟨10, 10, 0⟩
              (my_index_of "ajax"))
            (my_index_of "ajax")) ([], 6, 6) = _
        rw [hi, finRange_six]
        simp only [List.foldl_cons, List.foldl_nil, bearing_step, hypot_lt_two,
          Function.update_apply, pose.zero, fin6_ne_zero.1, fin6_ne_zero.2.1,
          fin6_ne_zero.2.2.1, fin6_ne_zero.2.2.2.1, fin6_ne_zero.2.2.2.2, if_false, if_true,
          ne_eq, not_true_eq_false, not_false_eq_true, false_and, true_and]
        norm_num)
  refine ⟨hnb, hax2, hay2, ?_⟩
  rw [hdir]
  show Complex.arg ⟨6, 6⟩ ≠ 0
  rw [Ne, Complex.arg_eq_zero_iff]
  norm_num

/-! ## Velocity commands: properties -/

/-- The effects of `setVelocity`, with the scale factors written first. -/
theorem setVelocity_scaled {α : Type} [LinearOrderedField α] (l a : α) :
    setVelocity l a =
      [Output.killSwitchTimer_stop, Output.killSwitchTimer_start,
        Output.velocityPublish (1.3 * l) (8 * a)] := by
  unfold setVelocity
  rw [mul_comm l, mul_comm a]

/-- The effects of a tick in the modes 2 and 3 with the controller in
Translate. -/
theorem translate_tick_outputs {α : Type} [LinearOrderedField α] (now : α) (st : State α)
    (hmode : st.simulation_mode = 2 ∨ st.simulation_mode = 3)
    (hstate : st.state_machine_state = STATE_MACHINE_TRANSLATE) :
    (mobilityStateMachine now st).2 =
      [Output.killSwitchTimer_stop, Output.killSwitchTimer_start,
        Output.velocityPublish (1.3 * 0.05)
          (8 * 0.5 * (st.direction_theta - st.current_location.theta)),
        Output.posePublisher st.rover_name st.current_location.x st.current_location.y
          st.current_location.theta,
        Output.stateMachinePublish "TRANSLATING"] := by
  unfold mobilityStateMachine
  simp only [if_pos hmode]
  by_cases ht : st.transitions_to_auto = 0
  · simp only [if_pos ht, if_pos hstate, setVelocity_scaled, KP, List.cons_append,
      List.nil_append, mul_assoc]
  · simp only [if_neg ht, if_pos hstate, setVelocity_scaled, KP, List.cons_append,
      List.nil_append, mul_assoc]

/-- C8: in every state whose mode is 2 or 3 and whose controller state is
Translate, one tick performs, in order, the restart of the kill switch timer,
one velocity command with linear component `1.3 * 0.05` and angular component
`8 * 0.5 * (direction_theta - current_location.theta)`, the pose broadcast and
the state name "TRANSLATING"; no other velocity command is emitted.  With
current heading `0` and bearing `π/2` the angular velocity before scaling is
`0.5 * (π/2)` and the command carries `8 * (0.5 * (π/2))`. -/
theorem C8_translate_tick (now : ℝ) (st : State ℝ)
    (hmode : st.simulation_mode = 2 ∨ st.simulation_mode = 3)
    (hstate : st.state_machine_state = STATE_MACHINE_TRANSLATE) :
    (mobilityStateMachine now st).2 =
      [Output.killSwitchTimer_stop, Output.killSwitchTimer_start,
        Output.velocityPublish (1.3 * 0.05)
          (8 * 0.5 * (st.direction_theta - st.current_location.theta)),
        Output.posePublisher st.rover_name st.current_location.x st.current_location.y
          st.current_location.theta,
        Output.stateMachinePublish "TRANSLATING"]
    ∧ (mobilityStateMachine now st).2.countP Output.isVelocity = 1
    ∧ (st.current_location.theta = 0 → st.direction_theta = Real.pi / 2 →
        KP * (st.direction_theta - st.current_location.theta) = 0.5 * (Real.pi / 2)
        ∧ (mobilityStateMachine now st).2.filter Output.isVelocity =
          [Output.velocityPublish (1.3 * 0.05) (8 * (0.5 * (Real.pi / 2)))]) := by
  have hout : (mobilityStateMachine now st).2 =
      [Output.killSwitchTimer_stop, Output.killSwitchTimer_start,
        Output.velocityPublish (1.3 * 0.05)
          (8 * 0.5 * (st.direction_theta - st.current_location.theta)),
        Output.posePublisher st.rover_name st.current_location.x st.current_location.y
          st.current_location.theta,
        Output.stateMachinePublish "TRANSLATING"] := by
    exact translate_tick_outputs now st hmode hstate
  refine ⟨hout, ?_, ?_⟩
  · rw [hout]
    simp [List.countP_cons, Output.isVelocity]
  · intro h0 hb
    rw [hout, h0, hb]
    refine ⟨by simp [KP], ?_⟩
    simp [List.filter_cons, Output.isVelocity]
    ring

/-- C8, instance: mode 2, heading `0`, bearing `π/2`, controller state
Translate. -/
theorem C8_translate_tick_witness :
    (mobilityStateMachine 0
        { (State.initial "ajax" : State ℝ) with
          simulation_mode := 2, direction_theta := Real.pi / 2 }).2 =
      [Output.killSwitchTimer_stop, Output.killSwitchTimer_start,
        Output.velocityPublish (1.3 * 0.05) (8 * 0.5 * (Real.pi / 2 - (0 : ℝ))),
        Output.posePublisher "ajax" 0 0 0,
        Output.stateMachinePublish "TRANSLATING"]
    ∧ (mobilityStateMachine 0
        { (State.initial "ajax" : State ℝ) with
          simulation_mode := 2, direction_theta := Real.pi / 2 }).2.countP
        Output.isVelocity = 1
    ∧ ((0 : ℝ) = 0 → Real.pi / 2 = Real.pi / 2 →
        KP * (Real.pi / 2 - (0 : ℝ)) = 0.5 * (Real.pi / 2)
        ∧ (mobilityStateMachine 0
            { (State.initial "ajax" : State ℝ) with
              simulation_mode := 2, direction_theta := Real.pi / 2 }).2.filter
            Output.isVelocity =
          [Output.velocityPublish (1.3 * 0.05) (8 * (0.5 * (Real.pi / 2)))]) :=
  C8_translate_tick 0
    { (State.initial "ajax" : State ℝ) with
      simulation_mode := 2, direction_theta := Real.pi / 2 }
    (Or.inl rfl) rfl

/-- C9 (counterexample): in mode 4, which is neither 2 nor 3, the manual
command `(1, 1)` produces no velocity command at all; in mode 0 it produces the
command `(1.3, 8)`, which is not `(1, 1)`. -/
theorem C9_manual_command_not_unmodified :
    joyCmdHandler { (State.initial "ajax" : State ℚ) with simulation_mode := 4 } 1 1 = []
    ∧ joyCmdHandler (State.initial "ajax" : State ℚ) 1 1 =
        [Output.killSwitchTimer_stop, Output.killSwitchTimer_start,
          Output.velocityPublish 1.3 8]
    ∧ (Output.velocityPublish 1.3 8 : Output ℚ) ≠ Output.velocityPublish 1 1 := by
  refine ⟨?_, ?_, ?_⟩
  · simp [joyCmdHandler, State.initial]
  · simp [joyCmdHandler, State.initial, setVelocity]
  · intro h
    injection h with h1 h2
    norm_num at h2

/-- C9 (amended): for every state and every manual command `(l, a)`, if the
mode is 0 or 1 then `joyCmdHandler` restarts the kill switch timer and emits
the single velocity command `(1.3 * l, 8 * a)`; in every other mode it emits
nothing. -/
theorem C9_manual_command_scaled (st : State ℝ) (l a : ℝ) :
    joyCmdHandler st l a =
      if st.simulation_mode = 0 ∨ st.simulation_mode = 1 then
        [Output.killSwitchTimer_stop, Output.killSwitchTimer_start,
          Output.velocityPublish (1.3 * l) (8 * a)]
      else [] := by
  unfold joyCmdHandler
  rw [setVelocity_scaled]

/-- C10 (counterexample): in mode 0 a tick emits the pose broadcast and the
state name and nothing else; the kill switch timer is neither stopped nor
started. -/
theorem C10_manual_tick_keeps_watchdog :
    (mobilityStateMachine 0 (State.initial "ajax" : State ℚ)).2 =
      [Output.posePublisher "ajax" 0 0 0,
        Output.stateMachinePublish "WAITING, CURRENT MODE: 0"]
    ∧ Output.killSwitchTimer_stop ∉ (mobilityStateMachine 0 (State.initial "ajax" : State ℚ)).2
    ∧ Output.killSwitchTimer_start ∉
        (mobilityStateMachine 0 (State.initial "ajax" : State ℚ)).2 := by
  have h : (mobilityStateMachine 0 (State.initial "ajax" : State ℚ)).2 =
      [Output.posePublisher "ajax" 0 0 0,
        Output.stateMachinePublish "WAITING, CURRENT MODE: 0"] := by
    simp [mobilityStateMachine, State.initial, pose.zero]
    decide
  refine ⟨h, ?_, ?_⟩ <;> rw [h] <;> simp

/-- C10 (amended): every tick, in every mode and state, ends by emitting the
pose broadcast of the current location and then the state name, which is
"TRANSLATING" in the modes 2 and 3 with the controller in Translate,
"DEFAULT CASE: SOMETHING WRONG!!!!" in the modes 2 and 3 with any other
controller state, and "WAITING, CURRENT MODE: " followed by the mode number in
every other mode.  The kill switch timer is restarted (stop, then start)
exactly on the ticks that emit a velocity command, that is when the mode is 2
or 3 and the controller state is Translate; on every other tick nothing
precedes the two telemetry records. -/
theorem C10_tick_telemetry (now : ℝ) (st : State ℝ) :
    (mobilityStateMachine now st).2 =
      (if (st.simulation_mode = 2 ∨ st.simulation_mode = 3)
          ∧ st.state_machine_state = STATE_MACHINE_TRANSLATE then
        [Output.killSwitchTimer_stop, Output.killSwitchTimer_start,
          Output.velocityPublish (1.3 * 0.05)
            (8 * 0.5 * (st.direction_theta - st.current_location.theta))]
      else [])
      ++ [Output.posePublisher st.rover_name st.current_location.x st.current_location.y
            st.current_location.theta,
          Output.stateMachinePublish
            (if st.simulation_mode = 2 ∨ st.simulation_mode = 3 then
              (if st.state_machine_state = STATE_MACHINE_TRANSLATE then "TRANSLATING"
                else "DEFAULT CASE: SOMETHING WRONG!!!!")
              else "WAITING, " ++ ("CURRENT MODE: " ++ toString st.simulation_mode))] := by
  by_cases hmode : st.simulation_mode = 2 ∨ st.simulation_mode = 3
  · by_cases hstate : st.state_machine_state = STATE_MACHINE_TRANSLATE
    · rw [if_pos ⟨hmode, hstate⟩, if_pos hmode, if_pos hstate,
        translate_tick_outputs now st hmode hstate]
      rfl
    · rw [if_neg (fun h => hstate h.2), if_pos hmode, if_neg hstate]
      unfold mobilityStateMachine
      simp only [if_pos hmode]
      by_cases ht : st.transitions_to_auto = 0
      · simp only [if_pos ht, if_neg hstate, List.nil_append]
      · simp only [if_neg ht, if_neg hstate, List.nil_append]
  · rw [if_neg (fun h => hmode h.1), if_neg hmode]
    unfold mobilityStateMachine
    simp only [if_neg hmode, List.nil_append]

end Mobility
